import Mathlib

set_option maxRecDepth 100000
set_option maxHeartbeats 1000000

/-!
Shallow embedding of the release decision and notes engine of
`.github/scripts/release.py` (class `ReleaseManager`).

Conventions of the embedding:
* Pure string/list manipulation is translated directly.
* The boundary with external processes (`git tag -l`, `git log`,
  `git tag`, `git push`, `gh release create`, `gh api`) is made explicit:
  read-only command *outputs* become function inputs (e.g. the
  version-sorted tag list printed by `git tag -l 'v*' --sort=-version:refname`
  is a `List String` argument), and mutating commands act on an explicit
  `RepoState`, with the list of issued commands returned for effect
  accounting.  A command run with `check=True` that exits non-zero raises
  in Python; such calls are modelled with `Option` (`none` = the run
  aborts with `CalledProcessError`).
* Python's `re.match` for the two regexes of the script is translated as a
  deterministic prefix parser; this is exact because no alternative of the
  conventional-commit type alternation is a prefix of another, `[^)]+` and
  `\d+` cannot overrun their closing delimiter, and `.+` just means a
  nonempty newline-free remainder after `str.strip()`.
-/

namespace Release

/-- `class VersionType(Enum)` of release.py. -/
inductive VersionType where
  | major
  | minor
  | patch
deriving DecidableEq

/-- `.value` of the Python enum. -/
def VersionType.value : VersionType → String
  | .major => "major"
  | .minor => "minor"
  | .patch => "patch"

/-- Python `str.title()` applied to a `VersionType.value`. -/
def VersionType.titleValue : VersionType → String
  | .major => "Major"
  | .minor => "Minor"
  | .patch => "Patch"

/-- `@dataclass class CommitInfo` of release.py. -/
structure CommitInfo where
  type : String
  scope : Option String
  description : String
  body : Option String
  breaking : Bool
  hash : String
deriving DecidableEq

/-! ## The conventional-commit regex

`^(?P<type>feat|fix|docs|style|refactor|perf|test|chore|ci|build|revert)`
`(?:\((?P<scope>[^)]+)\))?(?P<breaking>!)?: (?P<description>.+)$`
matched with `re.match` against `commit_msg.strip()`. -/

/-- The type alternation of the regex, in source order. -/
def ccTypes : List String :=
  ["feat", "fix", "docs", "style", "refactor", "perf", "test", "chore",
   "ci", "build", "revert"]

/-- The whitespace removed by Python's `str.strip()` (ASCII part). -/
def isPySpace (c : Char) : Bool :=
  c == ' ' || c == '\t' || c == '\n' || c == '\r' || c == '\x0b' || c == '\x0c'

/-- Python `str.strip()` on the character list. -/
def pyStrip (l : List Char) : List Char :=
  ((l.dropWhile isPySpace).reverse.dropWhile isPySpace).reverse

/-- Python `str.lower()` on one character (ASCII letters; the keyword
heuristics below only involve ASCII). -/
def lowerChar (c : Char) : Char :=
  if 65 ≤ c.toNat && c.toNat ≤ 90 then Char.ofNat (c.toNat + 32) else c

/-- Python `str.lower()` on the character list. -/
def pyLower (l : List Char) : List Char :=
  l.map lowerChar

/-- Characters of the scope group `[^)]+`: everything up to the first `)`. -/
def takeScopeChars : List Char → (List Char × List Char)
  | [] => ([], [])
  | c :: rest =>
    if c = ')' then ([], c :: rest)
    else
      let (inner, r) := takeScopeChars rest
      (c :: inner, r)

/-- `(?P<breaking>!)?: (?P<description>.+)$` — the part after type/scope.
`.` does not match a newline and the input was stripped, so the
description is the nonempty newline-free remainder after `": "`. -/
def parseBangAndDescription (l : List Char) : Option (Bool × String) :=
  let (breaking, rest) :=
    match l with
    | '!' :: r => (true, r)
    | r => (false, r)
  match rest with
  | ':' :: ' ' :: d =>
    if d.isEmpty then none
    else if d.any (fun c => c = '\n') then none
    else some (breaking, String.mk d)
  | _ => none

/-- `(?:\((?P<scope>[^)]+)\))?` followed by the tail of the regex. -/
def parseScopeAndTail (l : List Char) : Option (Option String × Bool × String) :=
  match l with
  | '(' :: r1 =>
    let (inner, r2) := takeScopeChars r1
    match r2 with
    | ')' :: r3 =>
      if inner.isEmpty then none
      else
        match parseBangAndDescription r3 with
        | some (b, d) => some (some (String.mk inner), b, d)
        | none => none
    | _ => none
  | other =>
    match parseBangAndDescription other with
    | some (b, d) => some (none, b, d)
    | none => none

/-- Does `s` start with `pat` (char lists)? -/
def listStartsWith : List Char → List Char → Bool
  | _, [] => true
  | [], _ :: _ => false
  | c :: cs, p :: ps => c = p && listStartsWith cs ps

/-- One alternative of the type alternation: match the literal type name,
then the rest of the regex. -/
def tryCommitType (t : String) (l : List Char) : Option (String × Option String × Bool × String) :=
  if listStartsWith l t.data then
    match parseScopeAndTail (l.drop t.data.length) with
    | some (sc, b, d) => some (t, sc, b, d)
    | none => none
  else none

/-- `re.match(pattern, commit_msg.strip())` of
`_parse_conventional_commit`, returning `(type, scope, breaking,
description)` on a match. -/
def parseConventionalCommit (msg : String) : Option (String × Option String × Bool × String) :=
  ccTypes.findSome? (fun t => tryCommitType t (pyStrip msg.data))

/-- Python `pat in s` substring test, on char lists. -/
def listHasSub : List Char → List Char → Bool
  | [], pat => pat.isEmpty
  | c :: rest, pat => listStartsWith (c :: rest) pat || listHasSub rest pat

/-- Python `pat in s` substring containment, on strings. -/
def containsSub (s pat : String) : Bool :=
  listHasSub s.data pat.data

/-- `any(word in commit_lower for word in words)`. -/
def anyKeyword (lw : List Char) (words : List String) : Bool :=
  words.any (fun w => listHasSub lw w.data)

/-- The keyword-heuristic fallback of `_parse_conventional_commit`
(lines 141–154), applied to `commit_msg.lower().strip()`. -/
def fallbackType (lw : List Char) : String :=
  if anyKeyword lw ["fix", "bug", "resolve", "patch"] then "fix"
  else if anyKeyword lw ["add", "new", "feature", "implement"] then "feat"
  else if anyKeyword lw ["update", "upgrade", "bump"] then "chore"
  else if anyKeyword lw ["refactor", "clean", "reorganize"] then "refactor"
  else if anyKeyword lw ["doc", "readme", "comment"] then "docs"
  else "chore"

/-- `_parse_conventional_commit(commit_msg, commit_hash)` as a total
function: the Python function always returns a `CommitInfo` (the `None`
regex branch falls through to the keyword heuristics). -/
def classifyCommit (msg : String) (hash : String) : CommitInfo :=
  match parseConventionalCommit msg with
  | some (t, sc, br, d) =>
    { type := t, scope := sc, description := d, body := none,
      breaking := br, hash := hash }
  | none =>
    { type := fallbackType (pyStrip (pyLower msg.data)), scope := none,
      description := String.mk (pyStrip msg.data), body := none, breaking := false,
      hash := hash }

/-- `_analyze_commits_for_version_bump`: `has_breaking`/`has_features`
are the two `any(...)` tests of lines 176–177, inlined. -/
def analyzeCommitsForVersionBump (commits : List CommitInfo) : VersionType :=
  if commits.any (fun c => c.breaking) then VersionType.major
  else if commits.any (fun c => c.type == "feat") then VersionType.minor
  else VersionType.patch

/-! Spec-side definitions (for refinement claims only). -/

/-- The fixed category enum of the spec's data model (§3). -/
inductive Category where
  | feature
  | fix
  | docs
  | style
  | refactor
  | performance
  | test
  | chore
  | ci
  | build
  | revert
deriving DecidableEq

/-- Rendering of a spec category as the category string the code uses. -/
def catStr : Category → String
  | .feature => "feat"
  | .fix => "fix"
  | .docs => "docs"
  | .style => "style"
  | .refactor => "refactor"
  | .performance => "perf"
  | .test => "test"
  | .chore => "chore"
  | .ci => "ci"
  | .build => "build"
  | .revert => "revert"

/-- Modelled from the spec (§4.1): the keyword classes, checked in the
spec's fixed order against the lowercased message text `lw`; the first
matching class wins. -/
def specCategoryOf (lw : List Char) : Category :=
  if anyKeyword lw ["fix", "bug", "resolve", "patch"] then Category.fix
  else if anyKeyword lw ["add", "new", "feature", "implement"] then Category.feature
  else if anyKeyword lw ["update", "upgrade", "bump"] then Category.chore
  else if anyKeyword lw ["refactor", "clean", "reorganize"] then Category.refactor
  else if anyKeyword lw ["doc", "readme", "comment"] then Category.docs
  else Category.chore

/-- Modelled from the spec (§4.1): the keyword-heuristic category for a
message that does not match the conventional-commit grammar. -/
def specFallbackCategory (msg : String) : Category :=
  specCategoryOf (pyStrip (pyLower msg.data))

/-- Modelled from the spec (§4.3): the advisory
`suggestKind(changeSet) -> IncrementKind`. -/
def suggestKind (commits : List CommitInfo) : VersionType :=
  if commits.any (fun c => c.breaking) then VersionType.major
  else if commits.any (fun c => c.type == "feat") then VersionType.minor
  else VersionType.patch

/-! ## Version discovery and computation

`_get_last_version` and `get_next_version` both run
`git tag -l 'v*' --sort=-version:refname` and look at the FIRST line of its
output.  The embedding takes that command's output (already version-sorted
descending by git, an external collaborator) as a `List String`; the empty
output of the command is `[""]` after Python's `''.strip().split('\n')`. -/

/-- `\d+`: longest digit prefix. -/
def takeDigits : List Char → (List Char × List Char)
  | [] => ([], [])
  | c :: rest =>
    if c.isDigit then
      let (ds, r) := takeDigits rest
      (c :: ds, r)
    else ([], c :: rest)

/-- Python `int` of a digit string. -/
def digitsToNat (ds : List Char) : Nat :=
  ds.foldl (fun acc c => acc * 10 + (c.toNat - 48)) 0

/-- `re.match(r'v(\d+)\.(\d+)\.(\d+)', latest_tag)` — a PREFIX match:
trailing garbage after the three numbers is accepted, as in Python. -/
def matchVersionTag (s : String) : Option (Nat × Nat × Nat) :=
  match s.data with
  | 'v' :: rest =>
    let (d1, r1) := takeDigits rest
    if d1.isEmpty then none
    else
      match r1 with
      | '.' :: r2 =>
        let (d2, r3) := takeDigits r2
        if d2.isEmpty then none
        else
          match r3 with
          | '.' :: r4 =>
            let (d3, _) := takeDigits r4
            if d3.isEmpty then none
            else some (digitsToNat d1, digitsToNat d2, digitsToNat d3)
          | _ => none
      | _ => none
  | _ => none

/-- The three `new_version = f"v..."` branches of `get_next_version`
(lines 552–557), as a tuple. -/
def bumpTuple (vt : VersionType) (major minor patch : Nat) : Nat × Nat × Nat :=
  match vt with
  | .major => (major + 1, 0, 0)
  | .minor => (major, minor + 1, 0)
  | .patch => (major, minor, patch + 1)

/-- Canonical string form `v{major}.{minor}.{patch}`. -/
def versionString : Nat × Nat × Nat → String
  | (major, minor, patch) =>
    "v" ++ toString major ++ "." ++ toString minor ++ "." ++ toString patch

/-- Strict numeric tuple order on versions. -/
def tupleLt (a b : Nat × Nat × Nat) : Prop :=
  a.1 < b.1 ∨ (a.1 = b.1 ∧ (a.2.1 < b.2.1 ∨ (a.2.1 = b.2.1 ∧ a.2.2 < b.2.2)))

/-- `get_next_version(version_type)`, over the (version-sorted) output
lines of `git tag -l 'v*' --sort=-version:refname`.  The Python code
inspects only `tags[0]`: empty or regex-rejected first line gives the
bootstrap version `v1.0.0`. -/
def getNextVersion (tags : List String) (vt : VersionType) : String :=
  match tags with
  | [] => "v1.0.0"
  | t :: _ =>
    if t = "" then "v1.0.0"
    else
      match matchVersionTag t with
      | none => "v1.0.0"
      | some (major, minor, patch) => versionString (bumpTuple vt major minor patch)

/-- `_get_last_version()`: first line of the sorted tag listing, or
`HEAD~10` when the listing is empty or the command raised (`none`). -/
def getLastVersion (cmdOutput : Option (List String)) : String :=
  match cmdOutput with
  | none => "HEAD~10"
  | some [] => "HEAD~10"
  | some (t :: _) => if t = "" then "HEAD~10" else t

/-- The range argument `f'{self._get_last_version()}..HEAD'` passed to
`git log` in `_get_commits_since_last_release`. -/
def commitRangeArg (cmdOutput : Option (List String)) : String :=
  getLastVersion cmdOutput ++ "..HEAD"

/-! ## The MANUAL notes renderer (`_generate_automatic_notes`)

The Python code appends lines to a single `sections` list; each source
block becomes one chunk definition here, concatenated in source order by
`buildSections`.  `grouped_commits[t]` (a `defaultdict` filled in commit
order) is `commits.filter (·.type == t)`, and `t in grouped_commits` is
`commits.any (·.type == t)`. -/

/-- `f"- {scope_text}{commit.description}"` with
`scope_text = f"**{commit.scope}**: " if commit.scope else ""`. -/
def scopeText (c : CommitInfo) : String :=
  match c.scope with
  | some sc => "**" ++ sc ++ "**: "
  | none => ""

/-- An entry line of a non-maintenance section. -/
def entryLine (c : CommitInfo) : String :=
  "- " ++ scopeText c ++ c.description

/-- `breaking_commits = [c for c in commits if c.breaking]`. -/
def breakingCommits (commits : List CommitInfo) : List CommitInfo :=
  commits.filter (fun c => c.breaking)

/-- Lines 404–410: the Breaking Changes block. -/
def breakingSectionOf (commits : List CommitInfo) : List String :=
  if (breakingCommits commits).isEmpty then []
  else "### 💥 Breaking Changes" :: (breakingCommits commits).map entryLine ++ [""]

/-- Lines 413–419: the New Features block.  The loop body guards each
entry with `if not commit.breaking`. -/
def featSectionOf (commits : List CommitInfo) : List String :=
  if commits.any (fun c => c.type == "feat") then
    "### ✨ New Features" ::
      ((commits.filter (fun c => c.type == "feat")).filter
        (fun c => !c.breaking)).map entryLine ++ [""]
  else []

/-- Lines 422–427: the Bug Fixes block — no breaking guard. -/
def fixSectionOf (commits : List CommitInfo) : List String :=
  if commits.any (fun c => c.type == "fix") then
    "### 🐛 Bug Fixes" ::
      (commits.filter (fun c => c.type == "fix")).map entryLine ++ [""]
  else []

/-- Lines 430–435: the Performance Improvements block. -/
def perfSectionOf (commits : List CommitInfo) : List String :=
  if commits.any (fun c => c.type == "perf") then
    "### ⚡ Performance Improvements" ::
      (commits.filter (fun c => c.type == "perf")).map entryLine ++ [""]
  else []

/-- Lines 438–443: the Documentation block. -/
def docsSectionOf (commits : List CommitInfo) : List String :=
  if commits.any (fun c => c.type == "docs") then
    "### 📚 Documentation" ::
      (commits.filter (fun c => c.type == "docs")).map entryLine ++ [""]
  else []

/-- `maintenance_types` of line 446. -/
def maintenanceTypes : List String :=
  ["refactor", "chore", "ci", "build", "style", "test"]

/-- Lines 446–450: maintenance commits gathered per type, in
`maintenance_types` order. -/
def maintenanceCommits (commits : List CommitInfo) : List CommitInfo :=
  (maintenanceTypes.map (fun t => commits.filter (fun c => c.type == t))).flatten

/-- The `type_emoji` lookup of lines 456–463, with default `🔧`. -/
def typeEmoji (t : String) : String :=
  if t == "refactor" then "♻️"
  else if t == "chore" then "🧹"
  else if t == "ci" then "👷"
  else if t == "build" then "📦"
  else if t == "style" then "💄"
  else if t == "test" then "✅"
  else "🔧"

/-- A maintenance entry line `f"- {type_emoji} {scope_text}{description}"`. -/
def maintenanceEntryLine (c : CommitInfo) : String :=
  "- " ++ typeEmoji c.type ++ " " ++ scopeText c ++ c.description

/-- Lines 452–465: the Maintenance block (the header emoji is the literal
replacement character present in the source). -/
def maintenanceSectionOf (commits : List CommitInfo) : List String :=
  if (maintenanceCommits commits).isEmpty then []
  else "### � Maintenance" ::
    (maintenanceCommits commits).map maintenanceEntryLine ++ [""]

/-- The `feat_count` of line 472: non-breaking feature commits only. -/
def featStatCount (commits : List CommitInfo) : Nat :=
  ((commits.filter (fun c => c.type == "feat")).filter
    (fun c => !c.breaking)).length

/-- Lines 468–480: the `stats` list. -/
def statsList (commits : List CommitInfo) : List String :=
  (if (breakingCommits commits).isEmpty then []
   else ["**Breaking Changes**: " ++ toString (breakingCommits commits).length])
  ++ (if commits.any (fun c => c.type == "feat") then
        (if featStatCount commits > 0 then
          ["**New Features**: " ++ toString (featStatCount commits)]
         else [])
      else [])
  ++ (if commits.any (fun c => c.type == "fix") then
        ["**Bug Fixes**: " ++
          toString (commits.filter (fun c => c.type == "fix")).length]
      else [])
  ++ (if (maintenanceCommits commits).isEmpty then []
      else ["**Maintenance**: " ++ toString (maintenanceCommits commits).length])
  ++ ["**Total Changes**: " ++ toString commits.length ++ " commits"]

/-- Lines 482–485: the Release Statistics block. -/
def statsSectionOf (commits : List CommitInfo) : List String :=
  if (statsList commits).isEmpty then []
  else "### � Release Statistics" ::
    (statsList commits).map (fun s => "- " ++ s) ++ [""]

/-- Lines 487–494: the Version Recommendation block, emitted when the
suggested type differs from the configured one. -/
def recommendationSectionOf (commits : List CommitInfo) (vt : VersionType) : List String :=
  if analyzeCommitsForVersionBump commits ≠ vt then
    ["### 💡 Version Recommendation",
     "- **Detected**: " ++ (analyzeCommitsForVersionBump commits).titleValue ++
       " version recommended based on changes",
     "- **Configured**: " ++ vt.titleValue ++ " version will be created"]
    ++ (if commits.any (fun c => c.breaking) then
          ["- **⚠️ Note**: Breaking changes detected - consider major version bump"]
        else [])
    ++ [""]
  else []

/-- The full `sections` list of `_generate_automatic_notes` (lines
400–494), in source append order. -/
def buildSections (commits : List CommitInfo) (vt : VersionType) : List String :=
  breakingSectionOf commits
  ++ featSectionOf commits
  ++ fixSectionOf commits
  ++ perfSectionOf commits
  ++ docsSectionOf commits
  ++ maintenanceSectionOf commits
  ++ statsSectionOf commits
  ++ recommendationSectionOf commits vt

/-- `_generate_usage_block()`. -/
def usageBlock : String :=
  "---\n\n### 🚀 Usage\nUpdate your workflows to use the latest version:\n```yaml\nuses: broadsage/scorecard-action@v1\n```"

/-- `_generate_footer(ReleaseContext.MANUAL)`. -/
def footerManual : String :=
  "*This release was manually created via GitHub Actions workflow.*"

/-- Lines 387–398: the header icon. -/
def versionIcon (commits : List CommitInfo) : String :=
  if commits.any (fun c => c.breaking) then "💥"
  else if commits.any (fun c => c.type == "feat") then "🚀"
  else "🎯"

/-- `"\n".join(sections)`. -/
def joinNewline : List String → String
  | [] => ""
  | [x] => x
  | x :: y :: xs => x ++ "\n" ++ joinNewline (y :: xs)

/-- `_generate_automatic_notes(version)`, as a function of the parsed
commits since the last release (lines 363–503; the `version` argument is
unused by the Python body too). -/
def generateAutomaticNotes (_version : String) (commits : List CommitInfo) (vt : VersionType) : String :=
  if commits.isEmpty then
    "## 🚀 What's Changed\n\n### 📝 Updates\n- Various improvements and updates\n\n"
      ++ usageBlock ++ "\n\n" ++ footerManual
  else
    "## " ++ versionIcon commits ++ " What's Changed\n\n"
      ++ joinNewline (buildSections commits vt) ++ "\n"
      ++ usageBlock ++ "\n\n" ++ footerManual

/-- `_generate_manual_notes(version)`: custom notes are wrapped verbatim,
otherwise the automatic notes are rendered. -/
def generateManualNotes (customNotes : Option String) (version : String)
    (commits : List CommitInfo) (vt : VersionType) : String :=
  match customNotes with
  | some c =>
    "## 🚀 What's New\n\n" ++ c ++ "\n\n" ++ usageBlock ++ "\n\n" ++ footerManual
  | none => generateAutomaticNotes version commits vt

/-! ## The publisher (`_create_and_push_tags`, `create_and_publish_release`)

The tag store (local clone and `origin` identified: the script pushes
right after each tag command, and released tags are visible to
`git tag -l`) is an association list from tag name to the commit it
points at.  `git tag -a NAME` exits non-zero when NAME already exists —
at ANY commit — and `_run_command` runs it with `check=True`, so an
existing tag raises `CalledProcessError` (`none` here).
`git tag -f NAME` always succeeds and moves the tag. -/

/-- First-match lookup in the tag store. -/
def lookupTag (db : List (String × Nat)) (name : String) : Option Nat :=
  match db with
  | [] => none
  | p :: rest => if p.1 = name then some p.2 else lookupTag rest name

/-- `git tag -a name` at commit `head`: fails iff the tag exists. -/
def gitTagAnnotate (name : String) (head : Nat) (db : List (String × Nat)) :
    Option (List (String × Nat)) :=
  if (lookupTag db name).isSome then none else some (db ++ [(name, head)])

/-- `git tag -f name` pointing at commit `target`: overwrite or create. -/
def gitTagForce (name : String) (target : Nat) (db : List (String × Nat)) :
    List (String × Nat) :=
  if (lookupTag db name).isSome then
    db.map (fun p => if p.1 = name then (p.1, target) else p)
  else db ++ [(name, target)]

/-- `major_version = version.split('.')[0]` (line 617): the characters
before the first `.`. -/
def majorTagOf (version : String) : String :=
  String.mk (version.data.takeWhile (fun c => c ≠ '.'))

/-- `_create_and_push_tags(version, commit_msg)` acting on the tag store
with `HEAD = head`: annotated version tag (pushed), then force-moved
floating major tag (force-pushed).  `none` models the
`CalledProcessError` escaping from `_run_command(check=True)`. -/
def createAndPushTags (version : String) (head : Nat) (db : List (String × Nat)) :
    Option (List (String × Nat)) :=
  match gitTagAnnotate version head db with
  | none => none
  | some db1 => some (gitTagForce (majorTagOf version) head db1)

/-- The external commands `create_and_publish_release` can issue. -/
inductive GitCmd where
  | tagListSorted
  | logRead
  | configUser
  | tagAnnotate (name : String)
  | pushTag (name : String)
  | tagForce (name : String)
  | pushForce (name : String)
  | releaseCreate (name : String)
deriving DecidableEq

/-- Whether a command mutates external state (tags, remote refs, release
objects, git config); `git tag -l` and `git log` are read-only. -/
def GitCmd.mutates : GitCmd → Bool
  | .tagListSorted => false
  | .logRead => false
  | _ => true

/-- The externally visible repository state. -/
structure RepoState where
  /-- Tag store (name ↦ commit). -/
  db : List (String × Nat)
  /-- Published release objects. -/
  releases : List String
  /-- Output lines of `git tag -l 'v*' --sort=-version:refname`. -/
  sortedTags : List String
  /-- The commit `HEAD` points at. -/
  headCommit : Nat
deriving DecidableEq

/-- `create_and_publish_release(release_notes)` (lines 566–608): computes
the next version (a tag listing, read-only), then either stops in
dry-run, or configures git, creates/pushes the tags and the release.
Returns the version, the resulting state and the commands issued;
`none` models a raised `CalledProcessError`. -/
def createAndPublishRelease (vt : VersionType) (dryRun : Bool) (_notes : String)
    (st : RepoState) : Option (String × RepoState × List GitCmd) :=
  let version := getNextVersion st.sortedTags vt
  if dryRun then
    some (version, st, [GitCmd.tagListSorted])
  else
    match createAndPushTags version st.headCommit st.db with
    | none => none
    | some db1 =>
      some (version,
        { st with db := db1, releases := st.releases ++ [version] },
        [GitCmd.tagListSorted, GitCmd.configUser, GitCmd.configUser,
         GitCmd.tagAnnotate version, GitCmd.pushTag version,
         GitCmd.tagForce (majorTagOf version),
         GitCmd.pushForce (majorTagOf version),
         GitCmd.releaseCreate version])

/-- The MANUAL branch of `main()` (lines 642–649): render the notes
(reading the tag list for the version argument, and — without custom
notes — listing tags again in `_get_last_version` plus reading the git
log), then `create_and_publish_release`.  `commitLines` is the
`hash|subject` output of `git log`. -/
def mainManual (vt : VersionType) (dryRun : Bool) (customNotes : Option String)
    (commitLines : List (String × String)) (st : RepoState) :
    Option (String × String × RepoState × List GitCmd) :=
  let readCmds :=
    match customNotes with
    | some _ => [GitCmd.tagListSorted]
    | none => [GitCmd.tagListSorted, GitCmd.tagListSorted, GitCmd.logRead]
  let commits := commitLines.map (fun p => classifyCommit p.2 (String.mk (p.1.data.take 7)))
  let notes := generateManualNotes customNotes (getNextVersion st.sortedTags vt) commits vt
  match createAndPublishRelease vt dryRun notes st with
  | none => none
  | some (version, st1, cmds) => some (notes, version, st1, readCmds ++ cmds)

/-! ## Helper lemmas -/

/-- A successful version-tag match starts with `v`, so the tag is nonempty. -/
lemma matchVersionTag_ne_empty {t : String} {r : Nat × Nat × Nat}
    (h : matchVersionTag t = some r) : t ≠ "" := by
  intro hc
  rw [hc] at h
  exact Option.noConfusion ((rfl : matchVersionTag "" = none) ▸ h)

/-- `get_next_version` on a matched first tag bumps that tag. -/
lemma getNextVersion_cons_some {t : String} {M m p : Nat}
    (h : matchVersionTag t = some (M, m, p)) (vt : VersionType) (rest : List String) :
    getNextVersion (t :: rest) vt = versionString (bumpTuple vt M m p) := by
  have hne : t ≠ "" := matchVersionTag_ne_empty h
  simp only [getNextVersion, if_neg hne, h]

/-- A successful `findSome?` came from some list element. -/
lemma findSome?_mem_of_eq_some {α β : Type} {f : α → Option β} :
    ∀ {l : List α} {b : β}, l.findSome? f = some b → ∃ a, a ∈ l ∧ f a = some b := by
  intro l
  induction l with
  | nil => intro b h; simp [List.findSome?] at h
  | cons x xs ih =>
    intro b h
    rw [List.findSome?_cons] at h
    cases hx : f x with
    | some v =>
      rw [hx] at h
      exact ⟨x, List.mem_cons_self x xs, hx.trans h⟩
    | none =>
      rw [hx] at h
      obtain ⟨a, ha, hfa⟩ := ih h
      exact ⟨a, List.mem_cons_of_mem x ha, hfa⟩

/-- A successful `tryCommitType t` returns `t` as the commit type. -/
lemma tryCommitType_type_eq {t : String} {l : List Char}
    {r : String × Option String × Bool × String}
    (h : tryCommitType t l = some r) : r.1 = t := by
  unfold tryCommitType at h
  split at h
  · split at h
    · cases h; rfl
    · exact Option.noConfusion h
  · exact Option.noConfusion h

/-- The type of a regex-matched commit is one of the eleven grammar types. -/
lemma parseConventionalCommit_type_mem {msg : String}
    {r : String × Option String × Bool × String}
    (h : parseConventionalCommit msg = some r) : r.1 ∈ ccTypes := by
  obtain ⟨t, ht, heq⟩ := findSome?_mem_of_eq_some h
  rw [tryCommitType_type_eq heq]
  exact ht

/-- The keyword fallback only produces grammar types. -/
lemma fallbackType_mem (lw : List Char) : fallbackType lw ∈ ccTypes := by
  unfold fallbackType
  repeat' split
  all_goals decide

/-- A commit that fails the conventional grammar is classified with
`breaking = False`. -/
lemma classifyCommit_breaking_of_none {msg hash : String}
    (h : parseConventionalCommit msg = none) :
    (classifyCommit msg hash).breaking = false := by
  unfold classifyCommit
  rw [h]

/-- Without a breaking commit, the version-bump analysis cannot say MAJOR. -/
lemma analyze_ne_major_of_no_breaking {commits : List CommitInfo}
    (hb : commits.any (fun c => c.breaking) = false) :
    analyzeCommitsForVersionBump commits ≠ VersionType.major := by
  unfold analyzeCommitsForVersionBump
  rw [hb]
  by_cases hf : commits.any (fun c => c.type == "feat") = true
  · rw [if_neg (by simp), if_pos hf]
    exact fun hc => VersionType.noConfusion hc
  · rw [if_neg (by simp), if_neg hf]
    exact fun hc => VersionType.noConfusion hc

/-! ## Claim theorems -/

/-- C4: for every last tag the version regex accepts as
`v{major}.{minor}.{patch}` and every requested increment kind,
`get_next_version` returns exactly the bump of that tuple, the bump is
strictly greater under numeric tuple order, and each kind increments its
own component by one and zeroes the lower ones. -/
theorem next_version_increments (tag : String) (rest : List String) (vt : VersionType)
    (M m p : Nat) (h : matchVersionTag tag = some (M, m, p)) :
    getNextVersion (tag :: rest) vt = versionString (bumpTuple vt M m p)
    ∧ tupleLt (M, m, p) (bumpTuple vt M m p)
    ∧ bumpTuple VersionType.major M m p = (M + 1, 0, 0)
    ∧ bumpTuple VersionType.minor M m p = (M, m + 1, 0)
    ∧ bumpTuple VersionType.patch M m p = (M, m, p + 1) := by
  refine ⟨getNextVersion_cons_some h vt rest, ?_, rfl, rfl, rfl⟩
  cases vt with
  | major => exact Or.inl (Nat.lt_succ_self M)
  | minor => exact Or.inr ⟨rfl, Or.inl (Nat.lt_succ_self m)⟩
  | patch => exact Or.inr ⟨rfl, Or.inr ⟨rfl, Nat.lt_succ_self p⟩⟩

/-- Witness for C4 at the concrete tag `v1.2.3` with a patch bump. -/
theorem next_version_increments_witness :
    getNextVersion ["v1.2.3"] VersionType.patch
      = versionString (bumpTuple VersionType.patch 1 2 3)
    ∧ tupleLt (1, 2, 3) (bumpTuple VersionType.patch 1 2 3) := by
  have h := next_version_increments "v1.2.3" [] VersionType.patch 1 2 3 (by decide)
  exact ⟨h.1, h.2.1⟩

/-- C7 counterexample: the malformed tag `v10` (which
`--sort=-version:refname` orders above `v9.0.0`) is NOT skipped: with it
at the head of the listing the computed version collapses to the
bootstrap `v1.0.0`, whereas without it the well-formed `v9.0.0` is
selected and bumped to `v9.0.1`. -/
theorem malformed_head_changes_selection :
    getNextVersion ["v10", "v9.0.0"] VersionType.patch = "v1.0.0"
    ∧ getNextVersion ["v9.0.0"] VersionType.patch = "v9.0.1" := by
  constructor <;> decide

/-- C7 amended: version discovery consults ONLY the first entry of the
version-sorted tag listing; a malformed (regex-rejected) first entry
makes the computation fall back to `v1.0.0`, a matched first entry is
bumped, and the remaining entries never influence the result. -/
theorem first_tag_only_discovery :
    (∀ (vt : VersionType) (t : String) (rest : List String),
      t ≠ "" → matchVersionTag t = none →
      getNextVersion (t :: rest) vt = "v1.0.0")
    ∧ (∀ (vt : VersionType) (t : String) (rest : List String) (M m p : Nat),
      matchVersionTag t = some (M, m, p) →
      getNextVersion (t :: rest) vt = versionString (bumpTuple vt M m p))
    ∧ (∀ (vt : VersionType) (t : String) (rest rest2 : List String),
      getNextVersion (t :: rest) vt = getNextVersion (t :: rest2) vt) := by
  refine ⟨?_, ?_, ?_⟩
  · intro vt t rest hne h
    simp only [getNextVersion, if_neg hne, h]
  · intro vt t rest M m p h
    exact getNextVersion_cons_some h vt rest
  · intro vt t rest rest2
    rfl

/-- Witness for C7's amended claim at the malformed tag `v10`. -/
theorem first_tag_only_discovery_witness :
    getNextVersion ["v10"] VersionType.minor = "v1.0.0" :=
  first_tag_only_discovery.1 VersionType.minor "v10" [] (by decide) (by decide)

/-- C8: with no last version tag (empty listing, i.e. `[]` or the single
empty line Python's `split` produces), the next version is `v1.0.0` for
every requested increment kind; the computation takes no change set at
all, so it is independent of the commits. -/
theorem bootstrap_version (vt : VersionType) (rest : List String)
    (_changeSet : List CommitInfo) :
    getNextVersion [] vt = "v1.0.0" ∧ getNextVersion ("" :: rest) vt = "v1.0.0" := by
  constructor
  · rfl
  · rfl

/-- C10: when the tag listing is empty (`[]`, or the single empty line),
or the tag-listing command fails (`none`), the `git log` range used to
build the MANUAL change set is `HEAD~10..HEAD` — the last 10 commits. -/
theorem no_tags_range_head10 :
    commitRangeArg none = "HEAD~10..HEAD"
    ∧ commitRangeArg (some []) = "HEAD~10..HEAD"
    ∧ ∀ rest : List String, commitRangeArg (some ("" :: rest)) = "HEAD~10..HEAD" := by
  refine ⟨rfl, rfl, fun rest => ?_⟩
  simp only [commitRangeArg, getLastVersion, if_pos rfl]
  rfl

/-- C5: classification is total — every message (the conventional-commit
grammar path and the fallback path alike) yields a type from the fixed
category set — and on grammar failure the category is the first matching
keyword class in the spec's fixed order (`specFallbackCategory`, the
spec-side rendition, mapped to the code's category strings by `catStr`). -/
theorem classify_total_and_keyword_order :
    (∀ msg hash, (classifyCommit msg hash).type ∈ ccTypes)
    ∧ (∀ msg hash, parseConventionalCommit msg = none →
        (classifyCommit msg hash).type = catStr (specFallbackCategory msg)) := by
  constructor
  · intro msg hash
    unfold classifyCommit
    cases h : parseConventionalCommit msg with
    | some r =>
      obtain ⟨t, sc, br, d⟩ := r
      have := parseConventionalCommit_type_mem h
      exact this
    | none =>
      exact fallbackType_mem _
  · intro msg hash h
    unfold classifyCommit
    rw [h]
    show fallbackType (pyStrip (pyLower msg.data)) = catStr (specFallbackCategory msg)
    unfold fallbackType specFallbackCategory specCategoryOf
    split_ifs <;> rfl

/-- Witness for C5 at the garbage message `update the readme`, which
contains both a chore keyword (`update`) and a docs keyword (`readme`);
the earlier chore class wins. -/
theorem classify_total_and_keyword_order_witness :
    parseConventionalCommit "update the readme" = none
    ∧ (classifyCommit "update the readme" "abc1234").type
        = catStr (specFallbackCategory "update the readme")
    ∧ (classifyCommit "update the readme" "abc1234").type = "chore" :=
  ⟨by decide,
   classify_total_and_keyword_order.2 "update the readme" "abc1234" (by decide),
   by decide⟩

/-- C9: a message the conventional-commit grammar rejects is always
classified with `breaking = false`, so a change set built only from such
messages can never make the version-bump analysis suggest MAJOR. -/
theorem nonconventional_never_major :
    (∀ msg hash, parseConventionalCommit msg = none →
      (classifyCommit msg hash).breaking = false)
    ∧ (∀ entries : List (String × String),
        (∀ e ∈ entries, parseConventionalCommit e.2 = none) →
        analyzeCommitsForVersionBump
          (entries.map (fun e => classifyCommit e.2 (String.mk (e.1.data.take 7))))
          ≠ VersionType.major) := by
  constructor
  · intro msg hash h
    exact classifyCommit_breaking_of_none h
  · intro entries hall
    have hb : (entries.map (fun e => classifyCommit e.2 (String.mk (e.1.data.take 7)))).any
        (fun c => c.breaking) = false := by
      rw [List.any_eq_false]
      intro c hc
      rw [List.mem_map] at hc
      obtain ⟨e, he, rfl⟩ := hc
      rw [classifyCommit_breaking_of_none (hall e he)]
      exact Bool.false_ne_true
    exact analyze_ne_major_of_no_breaking hb

/-- Witness for C9 on a change set of two non-conventional messages. -/
theorem nonconventional_never_major_witness :
    analyzeCommitsForVersionBump
      ([("abc1234def", "hello world"), ("0123456789", "update stuff")].map
        (fun e => classifyCommit e.2 (String.mk (e.1.data.take 7)))) ≠ VersionType.major :=
  nonconventional_never_major.2
    [("abc1234def", "hello world"), ("0123456789", "update stuff")] (by decide)

/-- The change set of the spec's end-to-end example 2. -/
def exampleCommitsC6 : List CommitInfo :=
  ["feat(api): add retry", "fix: null pointer", "chore: bump deps"].map
    (fun msg => classifyCommit msg "")

/-- Every list starts with the empty pattern. -/
lemma listStartsWith_nil_pat (xs : List Char) : listStartsWith xs [] = true := by
  cases xs <;> rfl

/-- `pat ++ ys` starts with `pat`. -/
lemma listStartsWith_append_self (pat ys : List Char) :
    listStartsWith (pat ++ ys) pat = true := by
  induction pat with
  | nil => exact listStartsWith_nil_pat ys
  | cons p ps ih => simp [listStartsWith, ih]

/-- A list starts with itself. -/
lemma listStartsWith_self (xs : List Char) : listStartsWith xs xs = true := by
  have h := listStartsWith_append_self xs []
  rwa [List.append_nil] at h

/-- Extending a list on the right preserves its prefixes. -/
lemma listStartsWith_append_of {xs pat : List Char}
    (h : listStartsWith xs pat = true) (ys : List Char) :
    listStartsWith (xs ++ ys) pat = true := by
  induction pat generalizing xs with
  | nil => exact listStartsWith_nil_pat _
  | cons p ps ih =>
    cases xs with
    | nil => exact absurd h (by simp [listStartsWith])
    | cons c cs =>
      simp only [List.cons_append, listStartsWith, Bool.and_eq_true] at h ⊢
      exact ⟨h.1, ih h.2⟩

/-- The empty pattern is a substring of every list. -/
lemma listHasSub_nil_pat (xs : List Char) : listHasSub xs [] = true := by
  cases xs with
  | nil => rfl
  | cons c rest => simp [listHasSub, listStartsWith_nil_pat]

/-- A prefix is in particular a substring. -/
lemma listHasSub_of_startsWith {xs pat : List Char}
    (h : listStartsWith xs pat = true) : listHasSub xs pat = true := by
  cases xs with
  | nil =>
    cases pat with
    | nil => rfl
    | cons p ps => exact absurd h (by simp [listStartsWith])
  | cons c rest => simp [listHasSub, h]

/-- A substring survives appending on the right. -/
lemma listHasSub_append_left {xs pat : List Char}
    (h : listHasSub xs pat = true) (ys : List Char) :
    listHasSub (xs ++ ys) pat = true := by
  induction xs with
  | nil =>
    have hp : pat = [] := by
      cases pat with
      | nil => rfl
      | cons p ps => exact absurd h (by simp [listHasSub])
    rw [hp]
    exact listHasSub_nil_pat _
  | cons c rest ih =>
    simp only [listHasSub, Bool.or_eq_true] at h
    cases h with
    | inl hs => exact listHasSub_of_startsWith (listStartsWith_append_of hs ys)
    | inr hsub =>
      have h2 := ih hsub
      simp [listHasSub, h2]

/-- A substring survives appending on the left. -/
lemma listHasSub_append_right {ys pat : List Char}
    (h : listHasSub ys pat = true) (xs : List Char) :
    listHasSub (xs ++ ys) pat = true := by
  induction xs with
  | nil => exact h
  | cons c rest ih => simp [listHasSub, ih]

/-- `String.data` distributes over append. -/
lemma str_data_append (a b : String) : (a ++ b).data = a.data ++ b.data := by
  cases a
  cases b
  rfl

/-- A whole line of the joined sections is a substring of the joined text. -/
lemma mem_joinNewline : ∀ {l : List String} {x : String}, x ∈ l →
    listHasSub (joinNewline l).data x.data = true := by
  intro l
  induction l with
  | nil => intro x h; exact absurd h (List.not_mem_nil x)
  | cons y ys ih =>
    intro x h
    cases ys with
    | nil =>
      have hx : x = y := by
        cases h with
        | head => rfl
        | tail _ h2 => exact absurd h2 (List.not_mem_nil x)
      rw [hx]
      exact listHasSub_of_startsWith (listStartsWith_self _)
    | cons z zs =>
      simp only [joinNewline, str_data_append, List.append_assoc]
      cases h with
      | head =>
        exact listHasSub_of_startsWith (listStartsWith_append_self _ _)
      | tail _ h2 =>
        exact listHasSub_append_right (listHasSub_append_right (ih h2) _) _

/-- When the analysis disagrees with the configured kind, the callout
header is one of the built section lines. -/
lemma callout_mem_buildSections {commits : List CommitInfo} {vt : VersionType}
    (h : analyzeCommitsForVersionBump commits ≠ vt) :
    "### 💡 Version Recommendation" ∈ buildSections commits vt := by
  unfold buildSections
  refine List.mem_append.mpr (Or.inr ?_)
  unfold recommendationSectionOf
  rw [if_pos h]
  exact List.mem_cons_self _ _

/-- C6 counterexample: with an EMPTY change set (e.g. a manual re-run
right after a release) the suggestion is PATCH, which differs from a
configured MAJOR, yet `_generate_automatic_notes` takes the early
generic-template return (release.py lines 368–376) and the rendered
MANUAL notes contain no version-recommendation callout; the custom-notes
path likewise never emits one even though the suggestion differs. -/
theorem empty_changeset_no_callout_counterexample :
    analyzeCommitsForVersionBump [] = VersionType.patch
    ∧ VersionType.patch ≠ VersionType.major
    ∧ containsSub (generateAutomaticNotes "v9.9.9" [] VersionType.major)
        "### 💡 Version Recommendation" = false
    ∧ containsSub
        (generateManualNotes (some "personal notes") "v9.9.9" exampleCommitsC6
          VersionType.major)
        "### 💡 Version Recommendation" = false := by
  refine ⟨rfl, by decide, by decide, by decide⟩

/-- C6 amended: the version-bump analysis implements the spec's advisory
`suggestKind` (MAJOR on any breaking commit, else MINOR on any feature,
else PATCH); for every NONEMPTY change set rendered on the MANUAL path
without custom notes, whenever the suggestion differs from the
configured kind the rendered notes text contains the
version-recommendation callout (an empty change set takes the generic
early return without it); on the example change set (`feat(api): add
retry`, `fix: null pointer`, `chore: bump deps`) the suggestion is MINOR
and with PATCH configured the rendered notes contain the callout. -/
theorem suggest_kind_and_nonempty_callout :
    (∀ commits, analyzeCommitsForVersionBump commits = suggestKind commits)
    ∧ (∀ (commits : List CommitInfo) (vt : VersionType) (version : String),
        commits ≠ [] → analyzeCommitsForVersionBump commits ≠ vt →
        containsSub (generateAutomaticNotes version commits vt)
          "### 💡 Version Recommendation" = true)
    ∧ analyzeCommitsForVersionBump exampleCommitsC6 = VersionType.minor
    ∧ containsSub (generateAutomaticNotes "v2.5.0" exampleCommitsC6 VersionType.patch)
        "### 💡 Version Recommendation" = true := by
  refine ⟨fun commits => rfl, ?_, by decide, by decide⟩
  intro commits vt version hne hdiff
  have hjoin := mem_joinNewline (callout_mem_buildSections hdiff)
  unfold containsSub generateAutomaticNotes
  rw [if_neg (fun h => hne (List.isEmpty_iff.mp h))]
  simp only [str_data_append, List.append_assoc]
  apply listHasSub_append_right
  apply listHasSub_append_right
  apply listHasSub_append_right
  exact listHasSub_append_left hjoin _

/-- Witness for C6's amended claim: the rendered notes of the nonempty
example change set contain the callout when PATCH is configured against
a MINOR suggestion. -/
theorem suggest_kind_and_nonempty_callout_witness :
    containsSub (generateAutomaticNotes "v2.5.0" exampleCommitsC6 VersionType.patch)
      "### 💡 Version Recommendation" = true :=
  suggest_kind_and_nonempty_callout.2.1 exampleCommitsC6 VersionType.patch "v2.5.0"
    (by decide) (by decide)

/-- A breaking commit's entry line is in the Breaking Changes block. -/
lemma mem_breakingSectionOf {commits : List CommitInfo} {c : CommitInfo}
    (hmem : c ∈ commits) (hbr : c.breaking = true) :
    entryLine c ∈ breakingSectionOf commits := by
  have hcb : c ∈ breakingCommits commits := List.mem_filter.mpr ⟨hmem, hbr⟩
  have hne : breakingCommits commits ≠ [] := List.ne_nil_of_mem hcb
  unfold breakingSectionOf
  rw [if_neg (fun h => hne (List.isEmpty_iff.mp h))]
  exact List.mem_cons_of_mem _ (List.mem_append.mpr (Or.inl (List.mem_map_of_mem _ hcb)))

/-- Every fix commit's entry line — breaking or not — is in the Bug
Fixes block. -/
lemma mem_fixSectionOf {commits : List CommitInfo} {c : CommitInfo}
    (hmem : c ∈ commits) (hfix : c.type = "fix") :
    entryLine c ∈ fixSectionOf commits := by
  have hany : commits.any (fun x => x.type == "fix") = true :=
    List.any_eq_true.mpr ⟨c, hmem, by simp [hfix]⟩
  have hcf : c ∈ commits.filter (fun x => x.type == "fix") :=
    List.mem_filter.mpr ⟨hmem, by simp [hfix]⟩
  unfold fixSectionOf
  rw [if_pos hany]
  exact List.mem_cons_of_mem _ (List.mem_append.mpr (Or.inl (List.mem_map_of_mem _ hcf)))

/-- A change set exercising a breaking fix, a breaking feat and a plain
feat commit. -/
def exampleCommitsC1 : List CommitInfo :=
  [classifyCommit "fix!: drop python 2" "a1b2c3d",
   classifyCommit "feat!: new api" "b2c3d4e",
   classifyCommit "feat: add retry" "c3d4e5f"]

/-- C1 counterexample: on the MANUAL path without custom notes, the
breaking fix commit `fix!: drop python 2` is NOT confined to the
Breaking Changes section — its entry line occurs twice in the rendered
sections (once under Breaking Changes and once under Bug Fixes) — and
the breaking feat commit is NOT counted in the New Features statistic
(the change set has two feat commits but the statistic reads 1). -/
theorem breaking_entry_duplicated_counterexample :
    (buildSections exampleCommitsC1 VersionType.major).count "- drop python 2" = 2
    ∧ "- drop python 2" ∈ fixSectionOf exampleCommitsC1
    ∧ "- **New Features**: 1" ∈ statsSectionOf exampleCommitsC1
    ∧ (exampleCommitsC1.filter (fun c => c.type == "feat")).length = 2 := by
  refine ⟨by decide, by decide, by decide, by decide⟩

/-- C1 amended: a breaking commit always appears in the Breaking Changes
section; only the New Features section filters breaking commits out of
its entry lines — a breaking fix commit is listed again under Bug Fixes,
so its entry line occurs at least twice in the rendered sections — and
the New Features statistic counts only non-breaking feat commits, so a
breaking feat commit is strictly not counted there. -/
theorem breaking_commit_rendering (commits : List CommitInfo) (vt : VersionType)
    (c : CommitInfo) (hmem : c ∈ commits) (hbr : c.breaking = true) :
    entryLine c ∈ breakingSectionOf commits
    ∧ (c.type = "fix" → 2 ≤ (buildSections commits vt).count (entryLine c))
    ∧ (c.type = "feat" →
        featStatCount commits < (commits.filter (fun x => x.type == "feat")).length)
    ∧ featSectionOf commits
        = (if commits.any (fun x => x.type == "feat") then
            "### ✨ New Features" ::
              ((commits.filter (fun x => x.type == "feat")).filter
                (fun x => !x.breaking)).map entryLine ++ [""]
           else []) := by
  refine ⟨mem_breakingSectionOf hmem hbr, ?_, ?_, rfl⟩
  · intro hfix
    have h1 : 0 < (breakingSectionOf commits).count (entryLine c) :=
      List.count_pos_iff.mpr (mem_breakingSectionOf hmem hbr)
    have h2 : 0 < (fixSectionOf commits).count (entryLine c) :=
      List.count_pos_iff.mpr (mem_fixSectionOf hmem hfix)
    unfold buildSections
    simp only [List.count_append]
    omega
  · intro hfeat
    have hcf : c ∈ commits.filter (fun x => x.type == "feat") :=
      List.mem_filter.mpr ⟨hmem, by simp [hfeat]⟩
    unfold featStatCount
    exact List.length_filter_lt_length_iff_exists.mpr ⟨c, hcf, by simp [hbr]⟩

/-- Witness for C1's amended claim at the breaking fix commit of the
example change set. -/
theorem breaking_commit_rendering_witness :
    entryLine (classifyCommit "fix!: drop python 2" "a1b2c3d")
      ∈ breakingSectionOf exampleCommitsC1
    ∧ 2 ≤ (buildSections exampleCommitsC1 VersionType.major).count
        (entryLine (classifyCommit "fix!: drop python 2" "a1b2c3d")) := by
  have h := breaking_commit_rendering exampleCommitsC1 VersionType.major
    (classifyCommit "fix!: drop python 2" "a1b2c3d") (by decide) (by decide)
  exact ⟨h.1, h.2.1 (by decide)⟩

/-- A name found in the prefix store is found in the appended store. -/
lemma lookupTag_append_of_some {db : List (String × Nat)} {n : String} {c : Nat}
    (h : lookupTag db n = some c) (l2 : List (String × Nat)) :
    lookupTag (db ++ l2) n = some c := by
  induction db with
  | nil => exact Option.noConfusion h
  | cons p rest ih =>
    simp only [lookupTag] at h ⊢
    by_cases hp : p.1 = n
    · rw [if_pos hp] at h ⊢
      exact h
    · rw [if_neg hp] at h ⊢
      exact ih h

/-- A name absent from the prefix store is looked up in the suffix. -/
lemma lookupTag_append_of_none {db : List (String × Nat)} {n : String}
    (h : lookupTag db n = none) (l2 : List (String × Nat)) :
    lookupTag (db ++ l2) n = lookupTag l2 n := by
  induction db with
  | nil => rfl
  | cons p rest ih =>
    simp only [lookupTag] at h ⊢
    by_cases hp : p.1 = n
    · rw [if_pos hp] at h
      exact Option.noConfusion h
    · rw [if_neg hp] at h ⊢
      exact ih h

/-- Replacing the bindings of `name` in the store does not change other
names' lookups. -/
lemma lookupTag_map_replace (name : String) (target : Nat)
    (db : List (String × Nat)) (n : String) (hn : n ≠ name) :
    lookupTag (db.map (fun p => if p.1 = name then (p.1, target) else p)) n
      = lookupTag db n := by
  induction db with
  | nil => rfl
  | cons p rest ih =>
    simp only [List.map_cons]
    by_cases hp : p.1 = name
    · rw [if_pos hp]
      simp only [lookupTag]
      have hpn : ¬ p.1 = n := fun h => hn (h.symm.trans hp)
      rw [if_neg hpn, if_neg hpn]
      exact ih
    · rw [if_neg hp]
      simp only [lookupTag]
      by_cases hpn : p.1 = n
      · rw [if_pos hpn, if_pos hpn]
      · rw [if_neg hpn, if_neg hpn]
        exact ih

/-- Replacing the bindings of a present `name` makes its lookup `target`. -/
lemma lookupTag_map_replace_self (name : String) (target : Nat)
    (db : List (String × Nat)) (hs : (lookupTag db name).isSome = true) :
    lookupTag (db.map (fun p => if p.1 = name then (p.1, target) else p)) name
      = some target := by
  induction db with
  | nil => simp [lookupTag] at hs
  | cons p rest ih =>
    simp only [List.map_cons]
    by_cases hp : p.1 = name
    · rw [if_pos hp]
      simp only [lookupTag]
      rw [if_pos hp]
    · rw [if_neg hp]
      simp only [lookupTag]
      rw [if_neg hp]
      apply ih
      simp only [lookupTag] at hs
      rw [if_neg hp] at hs
      exact hs

/-- After force-moving tag `name` to `target`, looking `name` up gives
`target`. -/
lemma lookupTag_gitTagForce_self (name : String) (target : Nat)
    (db : List (String × Nat)) :
    lookupTag (gitTagForce name target db) name = some target := by
  unfold gitTagForce
  by_cases hs : (lookupTag db name).isSome = true
  · rw [if_pos hs]
    exact lookupTag_map_replace_self name target db hs
  · rw [if_neg hs]
    have hn : lookupTag db name = none := by
      cases h : lookupTag db name with
      | none => rfl
      | some v => rw [h] at hs; exact absurd rfl hs
    rw [lookupTag_append_of_none hn]
    simp [lookupTag]

/-- Force-moving tag `name` leaves every other name's binding unchanged. -/
lemma lookupTag_gitTagForce_other (name : String) (target : Nat)
    (db : List (String × Nat)) (n : String) (hn : n ≠ name) :
    lookupTag (gitTagForce name target db) n = lookupTag db n := by
  unfold gitTagForce
  by_cases hs : (lookupTag db name).isSome = true
  · rw [if_pos hs]
    exact lookupTag_map_replace name target db n hn
  · rw [if_neg hs]
    cases h : lookupTag db n with
    | some v => exact lookupTag_append_of_some h _
    | none =>
      rw [lookupTag_append_of_none h]
      simp only [lookupTag]
      rw [if_neg (fun hh : name = n => hn hh.symm)]

/-- C2 counterexample: with `v1.2.0` already released at commit `5` (and
its floating tag `v1` there), publishing `v1.2.0` again at the very same
commit `5` does NOT succeed: `git tag -a v1.2.0` exits non-zero because
the tag exists, and `_run_command(check=True)` turns that into a raised
`CalledProcessError` (`none`), failing the run. -/
theorem same_commit_retag_fails_counterexample :
    createAndPushTags "v1.2.0" 5 [("v1.2.0", 5), ("v1", 5)] = none := by
  decide

/-- C2 amended: republishing an existing version tag fails with a raised
command error REGARDLESS of whether the target commit is the one it
already points at — there is no same-commit no-op and no distinct
`PublishConflict` report — while the existing version tag is never
moved; on a fresh version the tag is created at `HEAD` and only the
floating major tag is force-moved, all other tags keeping their
bindings. -/
theorem create_and_push_tags_behavior (db : List (String × Nat)) (ver : String)
    (head : Nat) :
    ((lookupTag db ver).isSome = true → createAndPushTags ver head db = none)
    ∧ (lookupTag db ver = none →
        ∃ db1, createAndPushTags ver head db = some db1
          ∧ lookupTag db1 ver = some head
          ∧ lookupTag db1 (majorTagOf ver) = some head
          ∧ ∀ n, n ≠ ver → n ≠ majorTagOf ver → lookupTag db1 n = lookupTag db n) := by
  constructor
  · intro hs
    unfold createAndPushTags gitTagAnnotate
    rw [if_pos hs]
  · intro hnone
    have hs : ¬ (lookupTag db ver).isSome = true := by
      rw [hnone]
      simp
    refine ⟨gitTagForce (majorTagOf ver) head (db ++ [(ver, head)]), ?_, ?_, ?_, ?_⟩
    · unfold createAndPushTags gitTagAnnotate
      rw [if_neg hs]
    · by_cases hv : ver = majorTagOf ver
      · rw [← hv]
        exact lookupTag_gitTagForce_self ver head _
      · rw [lookupTag_gitTagForce_other _ _ _ _ hv,
          lookupTag_append_of_none hnone]
        simp [lookupTag]
    · exact lookupTag_gitTagForce_self _ _ _
    · intro n hnv hnm
      rw [lookupTag_gitTagForce_other _ _ _ _ hnm]
      cases h : lookupTag db n with
      | some v => exact lookupTag_append_of_some h _
      | none =>
        rw [lookupTag_append_of_none h]
        simp only [lookupTag]
        rw [if_neg (fun hh : ver = n => hnv hh.symm)]

/-- Witness for C2's amended claim: the already-released `v1.2.0` cannot
be republished even at a different commit, and a fresh `v1.2.1` is
created with its floating `v1` tag force-moved. -/
theorem create_and_push_tags_behavior_witness :
    createAndPushTags "v1.2.0" 9 [("v1.2.0", 5), ("v1", 5)] = none
    ∧ majorTagOf "v1.2.1" = "v1"
    ∧ ∃ db1, createAndPushTags "v1.2.1" 9 [("v1.2.0", 5), ("v1", 5)] = some db1
        ∧ lookupTag db1 "v1.2.1" = some 9
        ∧ lookupTag db1 (majorTagOf "v1.2.1") = some 9
        ∧ ∀ n, n ≠ "v1.2.1" → n ≠ majorTagOf "v1.2.1" → lookupTag db1 n
            = lookupTag [("v1.2.0", 5), ("v1", 5)] n := by
  refine ⟨?_, by decide, ?_⟩
  · exact (create_and_push_tags_behavior [("v1.2.0", 5), ("v1", 5)] "v1.2.0" 9).1
      (by decide)
  · exact (create_and_push_tags_behavior [("v1.2.0", 5), ("v1", 5)] "v1.2.1" 9).2
      (by decide)

/-- C3: a MANUAL run with `dry_run=true` issues only read-only commands
(tag listings and the commit-log read), leaves the repository state
untouched, and its publish step returns exactly the version string that
a live run from the same state returns whenever that live run succeeds. -/
theorem dry_run_side_effect_free (vt : VersionType) (customNotes : Option String)
    (commitLines : List (String × String)) (notes : String) (st : RepoState) :
    (∃ renderedNotes cmds,
      mainManual vt true customNotes commitLines st
        = some (renderedNotes, getNextVersion st.sortedTags vt, st, cmds)
      ∧ cmds.all (fun c => !c.mutates) = true)
    ∧ createAndPublishRelease vt true notes st
        = some (getNextVersion st.sortedTags vt, st, [GitCmd.tagListSorted])
    ∧ (∀ v2 st2 cmds2,
        createAndPublishRelease vt false notes st = some (v2, st2, cmds2) →
        v2 = getNextVersion st.sortedTags vt) := by
  refine ⟨?_, rfl, ?_⟩
  · cases customNotes with
    | none => exact ⟨_, _, rfl, rfl⟩
    | some c => exact ⟨_, _, rfl, rfl⟩
  · intro v2 st2 cmds2 h
    unfold createAndPublishRelease at h
    simp only [Bool.false_eq_true, if_false] at h
    cases hc : createAndPushTags (getNextVersion st.sortedTags vt) st.headCommit st.db with
    | none =>
      rw [hc] at h
      exact Option.noConfusion h
    | some db1 =>
      rw [hc] at h
      cases h
      rfl

/-- Witness for C3 at a concrete one-release state: the dry run returns
`v1.0.1` without touching the state, and the live run from the same
state creates exactly `v1.0.1`. -/
theorem dry_run_side_effect_free_witness :
    (∃ renderedNotes cmds,
      mainManual VersionType.patch true none [("a", "fix: x")]
          { db := [("v1.0.0", 3), ("v1", 3)], releases := ["v1.0.0"],
            sortedTags := ["v1.0.0"], headCommit := 7 }
        = some (renderedNotes,
            getNextVersion ["v1.0.0"] VersionType.patch,
            { db := [("v1.0.0", 3), ("v1", 3)], releases := ["v1.0.0"],
              sortedTags := ["v1.0.0"], headCommit := 7 }, cmds)
      ∧ cmds.all (fun c => !c.mutates) = true)
    ∧ "v1.0.1" = getNextVersion ["v1.0.0"] VersionType.patch := by
  have h := dry_run_side_effect_free VersionType.patch none [("a", "fix: x")] "n"
    { db := [("v1.0.0", 3), ("v1", 3)], releases := ["v1.0.0"],
      sortedTags := ["v1.0.0"], headCommit := 7 }
  refine ⟨h.1, ?_⟩
  exact h.2.2 "v1.0.1"
    { db := [("v1.0.0", 3), ("v1", 7), ("v1.0.1", 7)],
      releases := ["v1.0.0", "v1.0.1"], sortedTags := ["v1.0.0"], headCommit := 7 }
    [GitCmd.tagListSorted, GitCmd.configUser, GitCmd.configUser,
     GitCmd.tagAnnotate "v1.0.1", GitCmd.pushTag "v1.0.1",
     GitCmd.tagForce "v1", GitCmd.pushForce "v1",
     GitCmd.releaseCreate "v1.0.1"] (by decide)

end Release
